import Mathlib

/-!
Verification of the GemPP core package: a shallow embedding in Lean 4 of the
party-record decoder, bag-pocket decoder, task-list scanner / state
classifier and the NPC stun (freeze-bit mutation) protocol, together with
proofs of the specified properties.

Machine integers are modelled as `Nat` with explicit `% 2^32` where the
TypeScript source forces unsigned 32-bit wrap (`>>> 0`); byte sequences are
`List Nat` with every entry `< 256`; memory and the external byte accessor
are oracles (`Memory`), and the stun protocol's successive flag reads are an
oracle `Nat → Nat` indexed by poll number.
-/

namespace GemPP

/-! ## Little-endian readers (DataView.getUint16 / getUint32, little-endian) -/

/-- Read a little-endian 16-bit value from a byte list (missing bytes read 0). -/
def le16 (data : List Nat) (offset : Nat) : Nat :=
  data.getD offset 0 + 256 * data.getD (offset + 1) 0

/-- Read a little-endian 32-bit value from a byte list (missing bytes read 0). -/
def le32 (data : List Nat) (offset : Nat) : Nat :=
  data.getD offset 0 + 256 * data.getD (offset + 1) 0 +
  65536 * data.getD (offset + 2) 0 + 16777216 * data.getD (offset + 3) 0

/-! ## Pokemon data-block decryption (src/packages/core/src/pokemon/index.ts,
`decryptDataBlock`) -/

/-- Assemble a 32-bit word from four little-endian bytes, exactly as the
source does with `b0 | b1 << 8 | b2 << 16 | b3 << 24`. -/
def word32OfBytes (b0 b1 b2 b3 : Nat) : Nat :=
  b0 ||| b1 <<< 8 ||| b2 <<< 16 ||| b3 <<< 24

/-- Split a 32-bit word into four little-endian bytes, exactly as the source
does with `w & 0xff, (w >> 8) & 0xff, (w >> 16) & 0xff, (w >> 24) & 0xff`. -/
def bytesOfWord32 (w : Nat) : List Nat :=
  [w &&& 0xff, (w >>> 8) &&& 0xff, (w >>> 16) &&& 0xff, (w >>> 24) &&& 0xff]

/-- The word-at-a-time XOR loop of `decryptDataBlock`: each 32-bit
little-endian word is XORed with the key (`>>> 0` forcing unsigned 32-bit). -/
def decryptWords (key : Nat) : List Nat → List Nat
  | b0 :: b1 :: b2 :: b3 :: rest =>
      bytesOfWord32 ((word32OfBytes b0 b1 b2 b3 ^^^ key) % 2 ^ 32) ++
        decryptWords key rest
  | rest => rest

/-- Source `decryptDataBlock(encryptedData, pid, otid)`: key is
`(pid ^ otid) >>> 0`, then every 32-bit word is XORed with the key. -/
def decryptDataBlock (encryptedData : List Nat) (pid otid : Nat) : List Nat :=
  decryptWords ((pid ^^^ otid) % 2 ^ 32) encryptedData

/-! ## Substructure order (src/packages/core/src/addresses/emerald.ts
`SUBSTRUCTURE_ORDER`, and `getSubstructureOffset`) -/

/-- Size of each encrypted substructure. -/
def SUBSTRUCTURE_SIZE : Nat := 12

/-- Substructure order lookup table based on PID % 24
(G = Growth, A = Attacks, E = EVs/Condition, M = Misc). -/
def SUBSTRUCTURE_ORDER : List (List Char) :=
  [['G','A','E','M'], ['G','A','M','E'], ['G','E','A','M'],
   ['G','E','M','A'], ['G','M','A','E'], ['G','M','E','A'],
   ['A','G','E','M'], ['A','G','M','E'], ['A','E','G','M'],
   ['A','E','M','G'], ['A','M','G','E'], ['A','M','E','G'],
   ['E','G','A','M'], ['E','G','M','A'], ['E','A','G','M'],
   ['E','A','M','G'], ['E','M','G','A'], ['E','M','A','G'],
   ['M','G','A','E'], ['M','G','E','A'], ['M','A','G','E'],
   ['M','A','E','G'], ['M','E','G','A'], ['M','E','A','G']]

/-- Source `getSubstructureOffset(pid, substructure)`: index the order table by
`pid % 24`, find the category's position, multiply by the substructure size. -/
def getSubstructureOffset (pid : Nat) (substructure : Char) : Nat :=
  let orderIndex := pid % 24
  let order := SUBSTRUCTURE_ORDER.getD orderIndex []
  let position := order.indexOf substructure
  position * SUBSTRUCTURE_SIZE

/-! ## External byte accessor (src/packages/core/src/memory/client.ts),
modelled as an oracle: each primitive returns whatever the live emulator
holds at call time. -/

structure Memory where
  read8 : Nat → Nat
  read32 : Nat → Nat
  readRange : Nat → Nat → List Nat

/-! ## Bag pocket decoding (src/unnamed/part_007, inventory section) -/

/-- Source `decryptQuantity`: XOR with lower 16 bits of the security key. -/
def decryptQuantity (encryptedQuantity securityKey : Nat) : Nat :=
  encryptedQuantity ^^^ (securityKey &&& 0xffff)

/-- Size of each item slot (u16 itemId + u16 encryptedQuantity). -/
def ITEM_SLOT_SIZE : Nat := 4

structure BagItem where
  id : Nat
  name : String
  quantity : Nat
deriving DecidableEq

/-- The slot loop of `getPocket`, from slot `i` up to `capacity`: read the
little-endian itemId, skip empty slots, decrypt the quantity, look up the
name. `data` is the byte range read for the whole pocket. -/
def getPocketItemsFrom (getItemName : Nat → Option String) (data : List Nat)
    (capacity key i : Nat) : List BagItem :=
  if h : i < capacity then
    let offset := i * ITEM_SLOT_SIZE
    let itemId := le16 data offset
    if itemId == 0 then getPocketItemsFrom getItemName data capacity key (i + 1)
    else
      let encryptedQuantity := le16 data (offset + 2)
      let quantity := decryptQuantity encryptedQuantity key
      let name := (getItemName itemId).getD ("UNKNOWN_" ++ toString itemId)
      { id := itemId, name, quantity } :: getPocketItemsFrom getItemName data capacity key (i + 1)
  else []
termination_by capacity - i
decreasing_by omega

/-- The pure slot-decoding core of `getPocket` (everything after the pocket's
byte range has been fetched). -/
def getPocketItems (getItemName : Nat → Option String) (data : List Nat)
    (capacity key : Nat) : List BagItem :=
  getPocketItemsFrom getItemName data capacity key 0

/-- The four raw bytes of pocket slot `i` within a pocket byte range. -/
def slotBytes (data : List Nat) (i : Nat) : List Nat :=
  [data.getD (i * ITEM_SLOT_SIZE) 0, data.getD (i * ITEM_SLOT_SIZE + 1) 0,
   data.getD (i * ITEM_SLOT_SIZE + 2) 0, data.getD (i * ITEM_SLOT_SIZE + 3) 0]

/-- The specification's per-slot decoder, stated from the spec's words
(§4.1 `decodePocketSlot`): read the 16-bit little-endian itemId, signal
empty if zero, otherwise decrypt the 16-bit quantity by XOR with the low 16
bits of the security key. Used to compare the implementation's pocket loop
against the spec, slot by slot. -/
def decodePocketSlotSpec (raw : List Nat) (securityKey : Nat) : Option (Nat × Nat) :=
  let itemId := le16 raw 0
  if itemId = 0 then none
  else some (itemId, le16 raw 2 ^^^ (securityKey &&& 0xffff))

/-! ## Task system reader (src/unnamed/part_007, task section; constants from
src/packages/core/src/addresses/emerald.ts) -/

def GTASKS_ADDR : Nat := 0x03005e00
def TASK_SIZE : Nat := 0x28
def TASK_COUNT : Nat := 16
def TASK_OFFSET_FUNC : Nat := 0x00
def TASK_OFFSET_IS_ACTIVE : Nat := 0x04
def TASK_OFFSET_PREV : Nat := 0x05
def TASK_OFFSET_PRIORITY : Nat := 0x07
def HEAD_SENTINEL : Nat := 0xfe

structure ActiveTask where
  id : Nat
  funcAddress : Nat
  funcName : Option String
  priority : Nat
  isHead : Bool
deriving DecidableEq

/-- Function `getTaskFunctionName` from the generated lookup module
(src/unnamed/part_006): `TASK_FUNCTIONS.get(address) ?? null`, with the
static address→name table passed in as data. -/
def getTaskFunctionName (TASK_FUNCTIONS : List (Nat × String)) (address : Nat) :
    Option String :=
  TASK_FUNCTIONS.lookup address

/-- Source `getActiveTasks`: walk the 16 task slots, skip inactive ones without
reading their other fields, resolve each active slot's function pointer. -/
def getActiveTasks (mem : Memory) (TASK_FUNCTIONS : List (Nat × String)) :
    List ActiveTask :=
  (List.range TASK_COUNT).filterMap fun i =>
    let taskAddr := GTASKS_ADDR + i * TASK_SIZE
    let isActive := mem.read8 (taskAddr + TASK_OFFSET_IS_ACTIVE)
    if isActive == 0 then none
    else
      let funcAddress := mem.read32 (taskAddr + TASK_OFFSET_FUNC)
      let prev := mem.read8 (taskAddr + TASK_OFFSET_PREV)
      let priority := mem.read8 (taskAddr + TASK_OFFSET_PRIORITY)
      let funcName := getTaskFunctionName TASK_FUNCTIONS funcAddress
      some { id := i, funcAddress, funcName, priority
             isHead := prev == HEAD_SENTINEL }

/-- Source `getHeadTask`: `tasks.find(t => t.isHead) ?? null`. -/
def getHeadTask (mem : Memory) (TASK_FUNCTIONS : List (Nat × String)) :
    Option ActiveTask :=
  (getActiveTasks mem TASK_FUNCTIONS).find? fun t => t.isHead

/-- Address ranges for static functions (after masking the Thumb bit). -/
def PARTY_MENU_RANGE : Nat × Nat := (0x081b0038, 0x081b99b4)
def ITEM_MENU_RANGE : Nat × Nat := (0x081a94e4, 0x081ae238)
def LIST_MENU_RANGE : Nat × Nat := (0x081ae458, 0x081afbf0)

/-- Source `isAddressInRange`: mask the Thumb bit (`address & ~1` in 32-bit
arithmetic), then test `[start, end)` containment. -/
def isAddressInRange (address : Nat) (range : Nat × Nat) : Bool :=
  let masked := address &&& 0xfffffffe
  decide (range.1 ≤ masked) && decide (masked < range.2)

def PARTY_MENU_TASKS : List String :=
  ["Task_HandleChooseMonInput", "Task_HandleSelectionMenuInput",
   "Task_TryCreateSelectionWindow"]

def START_MENU_TASKS : List String := ["Task_ShowStartMenu"]

def BAG_MENU_TASKS : List String :=
  ["Task_FadeAndCloseBagMenu", "Task_ScrollIndicatorArrowPairOnMainMenu"]

/-- Source `isPartyMenuOpen`: exported task-name match or party_menu.o range hit. -/
def isPartyMenuOpen (mem : Memory) (tbl : List (Nat × String)) : Bool :=
  (getActiveTasks mem tbl).any fun t =>
    (match t.funcName with
     | some n => PARTY_MENU_TASKS.contains n
     | none => false) ||
    isAddressInRange t.funcAddress PARTY_MENU_RANGE

/-- Source `isStartMenuOpen`: exported task-name match only. -/
def isStartMenuOpen (mem : Memory) (tbl : List (Nat × String)) : Bool :=
  (getActiveTasks mem tbl).any fun t =>
    match t.funcName with
    | some n => START_MENU_TASKS.contains n
    | none => false

/-- Source `isBagMenuOpen`: exported task-name match or item_menu.o / list_menu.o
range hit. -/
def isBagMenuOpen (mem : Memory) (tbl : List (Nat × String)) : Bool :=
  (getActiveTasks mem tbl).any fun t =>
    (match t.funcName with
     | some n => BAG_MENU_TASKS.contains n
     | none => false) ||
    isAddressInRange t.funcAddress ITEM_MENU_RANGE ||
    isAddressInRange t.funcAddress LIST_MENU_RANGE

/-- Source `isAnyMenuOpen`: `isPartyMenuOpen() || isStartMenuOpen() || isBagMenuOpen()`. -/
def isAnyMenuOpen (mem : Memory) (tbl : List (Nat × String)) : Bool :=
  isPartyMenuOpen mem tbl || isStartMenuOpen mem tbl || isBagMenuOpen mem tbl

def IN_BATTLE_BIT_ADDR : Nat := 0x030026f9
def IN_BATTLE_BITMASK : Nat := 0x02

/-- Source `isInBattle` (src/packages/core/src/pokemon/index.ts). -/
def isInBattle (mem : Memory) : Bool :=
  mem.read8 IN_BATTLE_BIT_ADDR &&& IN_BATTLE_BITMASK != 0

/-! ## NPC stun protocol (src/unnamed/part_002, `stunNpc`).

The successive values the target's 32-bit flags word shows to the protocol's
reads are an oracle `Nat → Nat` indexed by read number; waiting 32 ms
advances model time by 32, reads are instantaneous. -/

def FROZEN_BIT : Nat := 8
def SINGLE_MOVEMENT_ACTIVE_BIT : Nat := 1
def HELD_MOVEMENT_ACTIVE_BIT : Nat := 6
def SAFETY_WAIT_MS : Nat := 32
def SAFETY_TIMEOUT_MS : Nat := 2000

/-- One poll's safety test: both movement-in-progress bits clear
(`!singleMovementActive && !heldMovementActive`). -/
def isMovementSafe (flags : Nat) : Bool :=
  (flags >>> SINGLE_MOVEMENT_ACTIVE_BIT) &&& 1 == 0 &&
  (flags >>> HELD_MOVEMENT_ACTIVE_BIT) &&& 1 == 0

/-- The safety wait loop of `stunNpc`: starting at read index `k` with
`elapsed` ms used, poll until a safe window or the deadline. Returns the
index of the safe read (or `none` on timeout) and the number of polls made
in total. -/
def stunPoll (oracle : Nat → Nat) (k elapsed : Nat) : Option Nat × Nat :=
  if h : elapsed < SAFETY_TIMEOUT_MS then
    if isMovementSafe (oracle k) then (some k, k + 1)
    else stunPoll oracle (k + 1) (elapsed + SAFETY_WAIT_MS)
  else (none, k)
termination_by SAFETY_TIMEOUT_MS - elapsed
decreasing_by simp only [SAFETY_TIMEOUT_MS, SAFETY_WAIT_MS] at *; omega

inductive StunError where
  | rangeError
  | busyTimeout
deriving DecidableEq

/-- The observable outcome of one `stunNpc` call: its result and the memory
traffic it issued against the target's flags word. -/
structure StunOutcome where
  result : Except StunError Bool
  reads : Nat
  waits : Nat
  writes : List Nat

/-- Source `stunNpc(id)`: reject ids outside 1..15 before any access; otherwise
poll for a safe window; on timeout fail with no write; on success re-read
once more and write that value XOR the frozen bit. -/
def stunNpc (id : Int) (oracle : Nat → Nat) : StunOutcome :=
  if id < 1 ∨ id > 15 then
    { result := .error .rangeError, reads := 0, waits := 0, writes := [] }
  else
    match stunPoll oracle 0 0 with
    | (some k, polls) =>
        { result := .ok true, reads := polls + 1, waits := k
          writes := [oracle polls ^^^ (1 <<< FROZEN_BIT)] }
    | (none, polls) =>
        { result := .error .busyTimeout, reads := polls, waits := polls
          writes := [] }

/-! ## Party Pokemon reading (src/packages/core/src/pokemon/index.ts,
`getPokemon`), with an explicit trace of the byte-accessor calls issued. -/

def PLAYER_PARTY_ADDR : Nat := 0x020244ec
def POKEMON_SIZE : Nat := 100
def PLAYER_PARTY_COUNT_ADDR : Nat := 0x020244e9
def PARTY_SIZE : Nat := 6
def SPECIES_INFO_ADDR : Nat := 0x083203cc
def SPECIES_INFO_SIZE : Nat := 0x1c
def SPECIES_INFO_TYPES_OFFSET : Nat := 0x06
def SPECIES_INFO_ABILITIES_OFFSET : Nat := 0x16

def POKEMON_OFFSET_PID : Nat := 0x00
def POKEMON_OFFSET_OTID : Nat := 0x04
def POKEMON_OFFSET_NICKNAME : Nat := 0x08
def POKEMON_OFFSET_MISC_FLAGS : Nat := 0x13
def POKEMON_ENCRYPTED_START : Nat := 0x20
def POKEMON_ENCRYPTED_SIZE : Nat := 48
def POKEMON_OFFSET_STATUS : Nat := 0x50
def POKEMON_OFFSET_LEVEL : Nat := 0x54
def POKEMON_OFFSET_CURRENT_HP : Nat := 0x56
def POKEMON_OFFSET_MAX_HP : Nat := 0x58
def POKEMON_OFFSET_ATK : Nat := 0x5a
def POKEMON_OFFSET_DEF : Nat := 0x5c
def POKEMON_OFFSET_SPEED : Nat := 0x5e
def POKEMON_OFFSET_SPATK : Nat := 0x60
def POKEMON_OFFSET_SPDEF : Nat := 0x62
def GROWTH_SPECIES_OFFSET : Nat := 0x00
def GROWTH_HELD_ITEM_OFFSET : Nat := 0x02
def MISC_IVS_ABILITY_OFFSET : Nat := 0x04

def SLEEP_MASK : Nat := 0b111
def POISON_MASK : Nat := 1 <<< 3
def BURN_MASK : Nat := 1 <<< 4
def FREEZE_MASK : Nat := 1 <<< 5
def PARALYSIS_MASK : Nat := 1 <<< 6
def BAD_POISON_MASK : Nat := 1 <<< 7

inductive StatusCondition where
  | none
  | sleep
  | poison
  | burn
  | freeze
  | paralysis
  | badPoison
deriving DecidableEq

/-- Source `parseStatusCondition`: fixed severity order, first match wins. -/
def parseStatusCondition (status : Nat) : StatusCondition :=
  if status == 0 then .none
  else if status &&& BAD_POISON_MASK != 0 then .badPoison
  else if status &&& PARALYSIS_MASK != 0 then .paralysis
  else if status &&& FREEZE_MASK != 0 then .freeze
  else if status &&& BURN_MASK != 0 then .burn
  else if status &&& POISON_MASK != 0 then .poison
  else if status &&& SLEEP_MASK != 0 then .sleep
  else .none

/-- The `POKEMON_TYPES` record from the addresses module. -/
def POKEMON_TYPES : Nat → Option String
  | 0 => some "Normal"
  | 1 => some "Fighting"
  | 2 => some "Flying"
  | 3 => some "Poison"
  | 4 => some "Ground"
  | 5 => some "Rock"
  | 6 => some "Bug"
  | 7 => some "Ghost"
  | 8 => some "Steel"
  | 9 => some "???"
  | 10 => some "Fire"
  | 11 => some "Water"
  | 12 => some "Grass"
  | 13 => some "Electric"
  | 14 => some "Psychic"
  | 15 => some "Ice"
  | 16 => some "Dragon"
  | 17 => some "Dark"
  | _ => none

/-- The static id→name tables and the text decoder, external collaborators
passed in as data. -/
structure Tables where
  getSpeciesName : Nat → Option String
  getMoveName : Nat → Option String
  getAbilityName : Nat → Option String
  getItemName : Nat → Option String
  decodeByteArrayToString : List Nat → String

structure PokemonMove where
  id : Nat
  name : String
  pp : Nat
deriving DecidableEq

structure PokemonStats where
  hp : Nat
  atk : Nat
  defense : Nat
  spatk : Nat
  spdef : Nat
  speed : Nat
deriving DecidableEq

structure PokemonData where
  slot : Int
  speciesId : Nat
  species : String
  nickname : String
  level : Nat
  currentHp : Nat
  maxHp : Nat
  stats : PokemonStats
  status : StatusCondition
  moves : List PokemonMove
  types : List String
  ability : String
  heldItem : Option String
  isFainted : Bool
  isEgg : Bool
deriving DecidableEq

/-- One call to the external byte accessor. -/
inductive MemRead where
  | r8 (addr : Nat)
  | rrange (addr len : Nat)
deriving DecidableEq

inductive PokeError where
  | invalidSlot (slot : Int)
deriving DecidableEq

/-- Source `getPartyCount`: read the party-count byte. -/
def getPartyCount (mem : Memory) : Nat :=
  mem.read8 PLAYER_PARTY_COUNT_ADDR

/-- Source `getSpeciesInfo`: four u8 ROM reads (types and abilities), with trace. -/
def getSpeciesInfo (mem : Memory) (speciesId : Nat) :
    ((Nat × Nat) × (Nat × Nat)) × List MemRead :=
  let addr := SPECIES_INFO_ADDR + speciesId * SPECIES_INFO_SIZE
  let typesAddr := addr + SPECIES_INFO_TYPES_OFFSET
  let type1 := mem.read8 typesAddr
  let type2 := mem.read8 (typesAddr + 1)
  let abilitiesAddr := addr + SPECIES_INFO_ABILITIES_OFFSET
  let ability1 := mem.read8 abilitiesAddr
  let ability2 := mem.read8 (abilitiesAddr + 1)
  (((type1, type2), (ability1, ability2)),
   [.r8 typesAddr, .r8 (typesAddr + 1), .r8 abilitiesAddr,
    .r8 (abilitiesAddr + 1)])

/-- Source `getPokemon(slot)`: slot-range guard before any access, then the
party-count read and early `null` return, then the full record decode.
Returns the result together with the trace of accessor calls issued. -/
def getPokemon (mem : Memory) (tbl : Tables) (slot : Int) :
    Except PokeError (Option PokemonData) × List MemRead :=
  if slot < 0 ∨ (PARTY_SIZE : Int) ≤ slot then
    (.error (.invalidSlot slot), [])
  else
    let partyCount := getPartyCount mem
    if (partyCount : Int) ≤ slot then
      (.ok Option.none, [.r8 PLAYER_PARTY_COUNT_ADDR])
    else
      let baseAddr := PLAYER_PARTY_ADDR + slot.toNat * POKEMON_SIZE
      let rawData := mem.readRange baseAddr POKEMON_SIZE
      let pid := le32 rawData POKEMON_OFFSET_PID
      let otid := le32 rawData POKEMON_OFFSET_OTID
      let miscFlags := rawData.getD POKEMON_OFFSET_MISC_FLAGS 0
      let isEgg := miscFlags &&& 0x04 != 0
      let nickname := tbl.decodeByteArrayToString
        ((List.range 10).map fun i => rawData.getD (POKEMON_OFFSET_NICKNAME + i) 0)
      let status := le32 rawData POKEMON_OFFSET_STATUS
      let level := rawData.getD POKEMON_OFFSET_LEVEL 0
      let currentHp := le16 rawData POKEMON_OFFSET_CURRENT_HP
      let maxHp := le16 rawData POKEMON_OFFSET_MAX_HP
      let stats : PokemonStats :=
        { hp := maxHp
          atk := le16 rawData POKEMON_OFFSET_ATK
          defense := le16 rawData POKEMON_OFFSET_DEF
          spatk := le16 rawData POKEMON_OFFSET_SPATK
          spdef := le16 rawData POKEMON_OFFSET_SPDEF
          speed := le16 rawData POKEMON_OFFSET_SPEED }
      let encryptedBlock := (List.range POKEMON_ENCRYPTED_SIZE).map
        fun i => rawData.getD (POKEMON_ENCRYPTED_START + i) 0
      let decryptedBlock := decryptDataBlock encryptedBlock pid otid
      let growthOff := getSubstructureOffset pid 'G'
      let speciesId := le16 decryptedBlock (growthOff + GROWTH_SPECIES_OFFSET)
      let heldItemId := le16 decryptedBlock (growthOff + GROWTH_HELD_ITEM_OFFSET)
      let attacksOff := getSubstructureOffset pid 'A'
      let moves := (List.range 4).filterMap fun i =>
        let moveId := le16 decryptedBlock (attacksOff + 2 * i)
        if moveId == 0 then Option.none
        else
          some { id := moveId
                 name := (tbl.getMoveName moveId).getD ("UNKNOWN_" ++ toString moveId)
                 pp := decryptedBlock.getD (attacksOff + (8 + i)) 0 }
      let miscOff := getSubstructureOffset pid 'M'
      let ivsAbility := le32 decryptedBlock (miscOff + MISC_IVS_ABILITY_OFFSET)
      let abilityBit := (ivsAbility >>> 31) &&& 1
      let info := getSpeciesInfo mem speciesId
      let type1 := (POKEMON_TYPES info.1.1.1).getD "Unknown"
      let type2 := (POKEMON_TYPES info.1.1.2).getD "Unknown"
      let types := if type2 == type1 then [type1] else [type1, type2]
      let abilityId := if abilityBit == 0 then info.1.2.1 else info.1.2.2
      let ability := (tbl.getAbilityName abilityId).getD ("UNKNOWN_" ++ toString abilityId)
      let species := (tbl.getSpeciesName speciesId).getD ("UNKNOWN_" ++ toString speciesId)
      let heldItem := if heldItemId != 0
        then some ((tbl.getItemName heldItemId).getD ("UNKNOWN_" ++ toString heldItemId))
        else Option.none
      (.ok (some
        { slot, speciesId, species, nickname, level, currentHp, maxHp, stats
          status := parseStatusCondition status
          moves, types, ability, heldItem
          isFainted := currentHp == 0
          isEgg }),
       [.r8 PLAYER_PARTY_COUNT_ADDR, .rrange baseAddr POKEMON_SIZE] ++ info.2)

/-! ## Concrete fixtures used by witnesses and counterexamples -/

/-- A flags oracle that always reports the single-step bit set (busy). -/
def busyOracle : Nat → Nat := fun _ => 2

/-- A flags oracle showing busy, busy, then idle forever. -/
def busyBusyIdleOracle : Nat → Nat := fun k => if k < 2 then 2 else 0

/-- A task memory image: slot 0 active with the head sentinel as its
previous-link, slot 1 active without it, everything else inactive. -/
def oneHeadMem : Memory where
  read8 := fun a =>
    if a = GTASKS_ADDR + TASK_OFFSET_IS_ACTIVE then 1
    else if a = GTASKS_ADDR + TASK_SIZE + TASK_OFFSET_IS_ACTIVE then 1
    else if a = GTASKS_ADDR + TASK_OFFSET_PREV then HEAD_SENTINEL
    else 0
  read32 := fun _ => 0
  readRange := fun _ _ => []

/-- A task memory image: slot 0 active without the head sentinel, everything
else inactive. -/
def noHeadMem : Memory where
  read8 := fun a =>
    if a = GTASKS_ADDR + TASK_OFFSET_IS_ACTIVE then 1 else 0
  read32 := fun _ => 0
  readRange := fun _ _ => []

/-- A corrupt task memory image: slots 0 and 1 both active, both carrying
the head sentinel as their previous-link. -/
def twoHeadMem : Memory where
  read8 := fun a =>
    if a = GTASKS_ADDR + TASK_OFFSET_IS_ACTIVE then 1
    else if a = GTASKS_ADDR + TASK_SIZE + TASK_OFFSET_IS_ACTIVE then 1
    else if a = GTASKS_ADDR + TASK_OFFSET_PREV then HEAD_SENTINEL
    else if a = GTASKS_ADDR + TASK_SIZE + TASK_OFFSET_PREV then HEAD_SENTINEL
    else 0
  read32 := fun _ => 0
  readRange := fun _ _ => []

/-- A memory image with the in-battle bit set and no active tasks. -/
def battleOnlyMem : Memory where
  read8 := fun a => if a = IN_BATTLE_BIT_ADDR then 2 else 0
  read32 := fun _ => 0
  readRange := fun _ _ => []

/-- A memory image whose party-count byte reads 2 and whose other reads are
zero. -/
def partyOfTwoMem : Memory where
  read8 := fun a => if a = PLAYER_PARTY_COUNT_ADDR then 2 else 0
  read32 := fun _ => 0
  readRange := fun _ len => List.replicate len 0

/-- Empty static name tables. -/
def emptyTables : Tables where
  getSpeciesName := fun _ => Option.none
  getMoveName := fun _ => Option.none
  getAbilityName := fun _ => Option.none
  getItemName := fun _ => Option.none
  decodeByteArrayToString := fun _ => ""

/-! ## Arithmetic facts about 32-bit word assembly and splitting -/

theorem word32OfBytes_eq {b0 b1 b2 b3 : Nat} (h0 : b0 < 256) (h1 : b1 < 256)
    (h2 : b2 < 256) (h3 : b3 < 256) :
    word32OfBytes b0 b1 b2 b3 =
      b0 + 2 ^ 8 * b1 + 2 ^ 16 * b2 + 2 ^ 24 * b3 := by
  have p8 : (2 : Nat) ^ 8 = 256 := by norm_num
  have p16 : (2 : Nat) ^ 16 = 65536 := by norm_num
  have p24 : (2 : Nat) ^ 24 = 16777216 := by norm_num
  have q1 : b0 < 2 ^ 8 := by rw [p8]; exact h0
  have s1 : b0 ||| b1 * 2 ^ 8 = 2 ^ 8 * b1 + b0 := by
    rw [Nat.lor_comm, Nat.mul_comm b1]
    exact (Nat.mul_add_lt_is_or q1 b1).symm
  have bnd1 : 2 ^ 8 * b1 + b0 < 2 ^ 16 := by rw [p8, p16]; omega
  have s2 : (2 ^ 8 * b1 + b0) ||| b2 * 2 ^ 16 = 2 ^ 16 * b2 + (2 ^ 8 * b1 + b0) := by
    rw [Nat.lor_comm, Nat.mul_comm b2]
    exact (Nat.mul_add_lt_is_or bnd1 b2).symm
  have bnd2 : 2 ^ 16 * b2 + (2 ^ 8 * b1 + b0) < 2 ^ 24 := by rw [p8, p16, p24]; omega
  have s3 : (2 ^ 16 * b2 + (2 ^ 8 * b1 + b0)) ||| b3 * 2 ^ 24 =
      2 ^ 24 * b3 + (2 ^ 16 * b2 + (2 ^ 8 * b1 + b0)) := by
    rw [Nat.lor_comm, Nat.mul_comm b3]
    exact (Nat.mul_add_lt_is_or bnd2 b3).symm
  unfold word32OfBytes
  simp only [Nat.shiftLeft_eq]
  rw [s1, s2, s3]
  ring

theorem word32OfBytes_lt {b0 b1 b2 b3 : Nat} (h0 : b0 < 256) (h1 : b1 < 256)
    (h2 : b2 < 256) (h3 : b3 < 256) : word32OfBytes b0 b1 b2 b3 < 2 ^ 32 := by
  rw [word32OfBytes_eq h0 h1 h2 h3]
  norm_num
  omega

theorem bytesOfWord32_eq (w : Nat) :
    bytesOfWord32 w = [w % 2 ^ 8, w / 2 ^ 8 % 2 ^ 8, w / 2 ^ 16 % 2 ^ 8,
      w / 2 ^ 24 % 2 ^ 8] := by
  have h255 : (0xff : Nat) = 2 ^ 8 - 1 := by norm_num
  unfold bytesOfWord32
  rw [h255]
  simp only [Nat.and_pow_two_sub_one_eq_mod, Nat.shiftRight_eq_div_pow]

/-- Splitting a 32-bit word into bytes undoes assembling it from bytes. -/
theorem bytesOfWord32_word32OfBytes {b0 b1 b2 b3 : Nat} (h0 : b0 < 256)
    (h1 : b1 < 256) (h2 : b2 < 256) (h3 : b3 < 256) :
    bytesOfWord32 (word32OfBytes b0 b1 b2 b3) = [b0, b1, b2, b3] := by
  rw [bytesOfWord32_eq, word32OfBytes_eq h0 h1 h2 h3]
  norm_num
  refine ⟨?_, ?_, ?_, ?_⟩ <;> omega

/-- Assembling a 32-bit word from its own bytes reproduces it. -/
theorem word32OfBytes_bytesOfWord32 {w : Nat} (hw : w < 2 ^ 32) :
    word32OfBytes (w % 2 ^ 8) (w / 2 ^ 8 % 2 ^ 8) (w / 2 ^ 16 % 2 ^ 8)
      (w / 2 ^ 24 % 2 ^ 8) = w := by
  have p8 : (2 : Nat) ^ 8 = 256 := by norm_num
  rw [word32OfBytes_eq (by omega) (by rw [p8]; exact Nat.mod_lt _ (by norm_num))
    (by rw [p8]; exact Nat.mod_lt _ (by norm_num))
    (by rw [p8]; exact Nat.mod_lt _ (by norm_num))]
  norm_num at hw ⊢
  omega

/-- The word-at-a-time XOR pass is an involution on byte lists. -/
theorem decryptWords_involutive {key : Nat} (hkey : key < 2 ^ 32) :
    ∀ data : List Nat, (∀ b ∈ data, b < 256) →
      decryptWords key (decryptWords key data) = data
  | [], _ => rfl
  | [_], _ => rfl
  | [_, _], _ => rfl
  | [_, _, _], _ => rfl
  | b0 :: b1 :: b2 :: b3 :: rest, h => by
    have hb0 : b0 < 256 := h b0 (by simp)
    have hb1 : b1 < 256 := h b1 (by simp)
    have hb2 : b2 < 256 := h b2 (by simp)
    have hb3 : b3 < 256 := h b3 (by simp)
    have hrest : ∀ b ∈ rest, b < 256 := fun b hb => h b (by simp [hb])
    have ih := decryptWords_involutive hkey rest hrest
    have hWlt : word32OfBytes b0 b1 b2 b3 < 2 ^ 32 :=
      word32OfBytes_lt hb0 hb1 hb2 hb3
    have hx : word32OfBytes b0 b1 b2 b3 ^^^ key < 2 ^ 32 :=
      Nat.xor_lt_two_pow hWlt hkey
    show decryptWords key
        (bytesOfWord32 ((word32OfBytes b0 b1 b2 b3 ^^^ key) % 2 ^ 32) ++
          decryptWords key rest) = _
    rw [Nat.mod_eq_of_lt hx, bytesOfWord32_eq]
    show decryptWords key (_ :: _ :: _ :: _ :: decryptWords key rest) = _
    show bytesOfWord32 ((word32OfBytes _ _ _ _ ^^^ key) % 2 ^ 32) ++ _ = _
    rw [word32OfBytes_bytesOfWord32 hx, Nat.xor_cancel_right,
      Nat.mod_eq_of_lt hWlt, bytesOfWord32_word32OfBytes hb0 hb1 hb2 hb3, ih]
    rfl

/-- C5: for every 32-bit personality value, 32-bit origin-trainer value and
48-byte block, applying `decryptDataBlock` twice with the same pair
reproduces the block exactly: the per-word XOR with `key = pid XOR otid` is
self-inverse. -/
theorem decryptDataBlock_involutive (b : List Nat) (pid otid : Nat)
    (hpid : pid < 2 ^ 32) (hotid : otid < 2 ^ 32)
    (hlen : b.length = 48) (hbytes : ∀ x ∈ b, x < 256) :
    decryptDataBlock (decryptDataBlock b pid otid) pid otid = b :=
  decryptWords_involutive (Nat.mod_lt _ (by norm_num)) b hbytes

/-- Witness for C5 at a concrete 48-byte block and pid/otid pair. -/
theorem decryptDataBlock_involutive_witness :
    decryptDataBlock (decryptDataBlock (List.range 48) 305419896 2271560481)
      305419896 2271560481 = List.range 48 :=
  decryptDataBlock_involutive (List.range 48) 305419896 2271560481
    (by norm_num) (by norm_num) (by decide) (by decide)

/-- C6: for every 32-bit personality value, the four substructure offsets
for G, A, E, M are pairwise distinct and collectively equal {0, 12, 24, 36},
partitioning the 48-byte decrypted block into four disjoint 12-byte spans
for every entry of the 24-entry order table indexed by `pid % 24`. -/
theorem getSubstructureOffset_partition (pid : Nat) :
    [getSubstructureOffset pid 'G', getSubstructureOffset pid 'A',
     getSubstructureOffset pid 'E', getSubstructureOffset pid 'M'].Perm
      [0, 12, 24, 36] := by
  have h : ∀ r, r < 24 →
      [(SUBSTRUCTURE_ORDER.getD r []).indexOf 'G' * SUBSTRUCTURE_SIZE,
       (SUBSTRUCTURE_ORDER.getD r []).indexOf 'A' * SUBSTRUCTURE_SIZE,
       (SUBSTRUCTURE_ORDER.getD r []).indexOf 'E' * SUBSTRUCTURE_SIZE,
       (SUBSTRUCTURE_ORDER.getD r []).indexOf 'M' * SUBSTRUCTURE_SIZE].Perm
        [0, 12, 24, 36] := by decide
  exact h (pid % 24) (Nat.mod_lt pid (by norm_num))

/-! ## Pocket decoding facts -/

theorem le16_slotBytes_zero (data : List Nat) (i : Nat) :
    le16 (slotBytes data i) 0 = le16 data (i * ITEM_SLOT_SIZE) := rfl

theorem le16_slotBytes_two (data : List Nat) (i : Nat) :
    le16 (slotBytes data i) 2 = le16 data (i * ITEM_SLOT_SIZE + 2) := by
  have h : i * ITEM_SLOT_SIZE + 2 + 1 = i * ITEM_SLOT_SIZE + 3 := by omega
  simp [le16, slotBytes, h]

/-- The implementation's slot loop, started at `i`, agrees slot-by-slot with
the specification's per-slot decoder mapped over the remaining slots. -/
theorem getPocketItemsFrom_eq (gin : Nat → Option String) (data : List Nat)
    (capacity key : Nat) : ∀ i,
    getPocketItemsFrom gin data capacity key i =
      (List.range' i (capacity - i)).filterMap fun j =>
        (decodePocketSlotSpec (slotBytes data j) key).map fun p =>
          { id := p.1
            name := (gin p.1).getD ("UNKNOWN_" ++ toString p.1)
            quantity := p.2 } := by
  suffices H : ∀ n i, capacity - i = n →
      getPocketItemsFrom gin data capacity key i =
        (List.range' i (capacity - i)).filterMap fun j =>
          (decodePocketSlotSpec (slotBytes data j) key).map fun p =>
            { id := p.1
              name := (gin p.1).getD ("UNKNOWN_" ++ toString p.1)
              quantity := p.2 } by
    exact fun i => H (capacity - i) i rfl
  intro n
  induction n with
  | zero =>
    intro i hi
    rw [getPocketItemsFrom, dif_neg (by omega), hi]
    simp [List.range']
  | succ n ih =>
    intro i hi
    have hlt : i < capacity := by omega
    have hsub : capacity - (i + 1) = n := by omega
    rw [getPocketItemsFrom, dif_pos hlt, hi]
    rw [show List.range' i (n + 1) = i :: List.range' (i + 1) n from rfl]
    rw [List.filterMap_cons]
    rw [decodePocketSlotSpec]
    simp only [le16_slotBytes_zero, le16_slotBytes_two]
    by_cases hz : le16 data (i * ITEM_SLOT_SIZE) = 0
    · simp only [hz, beq_self_eq_true, if_true, reduceIte]
      have := ih (i + 1) hsub
      rw [hsub] at this
      exact this
    · have hzb : (le16 data (i * ITEM_SLOT_SIZE) == 0) = false := by
        simp [hz]
      simp only [hzb, if_false, hz, reduceIte, Option.map_some]
      have := ih (i + 1) hsub
      rw [hsub] at this
      rw [this]
      rfl

/-- C7: the pocket decoder excludes exactly the slots whose little-endian
16-bit itemId is zero, and every included slot's quantity is the encrypted
16-bit quantity XOR the low 16 bits of the security key — the loop agrees
with the specification's per-slot decoder on every slot; in particular
encrypted quantity 6 under key low bits 0 decodes to 6, and encrypted
quantity 0x1238 under key low bits 0x1234 decodes to 0x0c. -/
theorem getPocketItems_spec :
    (∀ (gin : Nat → Option String) (data : List Nat) (capacity key : Nat),
      getPocketItems gin data capacity key =
        (List.range capacity).filterMap fun j =>
          (decodePocketSlotSpec (slotBytes data j) key).map fun p =>
            { id := p.1
              name := (gin p.1).getD ("UNKNOWN_" ++ toString p.1)
              quantity := p.2 }) ∧
    decryptQuantity 6 0 = 6 ∧ decryptQuantity 0x1238 0x1234 = 0x0c := by
  refine ⟨?_, by decide, by decide⟩
  intro gin data capacity key
  rw [getPocketItems, getPocketItemsFrom_eq, List.range_eq_range']
  simp

/-! ## Task-pointer resolution and the Thumb bit -/

/-- C1 (the code violates it): the range-containment tier masks the
pointer's low (Thumb) bit, but the exact-match tier `getTaskFunctionName`
looks the raw pointer up without masking, so resolution at a pointer with
bit 0 set differs from resolution at the same pointer with bit 0 cleared —
shown here at pointer 0x081b1371 against a table carrying its masked
address, the very example the project's own testing notes require to
resolve after masking. -/
theorem getTaskFunctionName_thumb_divergence :
    getTaskFunctionName [(0x081b1370, "Task_HandleChooseMonInput")] 0x081b1371 =
      Option.none ∧
    getTaskFunctionName [(0x081b1370, "Task_HandleChooseMonInput")]
      (0x081b1371 &&& 0xfffffffe) = some "Task_HandleChooseMonInput" ∧
    (∀ p : Nat, isAddressInRange p PARTY_MENU_RANGE =
      isAddressInRange (p &&& 0xfffffffe) PARTY_MENU_RANGE) := by
  refine ⟨by decide, by decide, ?_⟩
  intro p
  simp [isAddressInRange, Nat.and_assoc]

/-! ## Head-task detection -/

/-- Helper: `List.find?` returns the unique element satisfying the predicate. -/
theorem find?_isHead_unique : ∀ (l : List ActiveTask) (t : ActiveTask),
    t ∈ l → t.isHead = true → (∀ u ∈ l, u.isHead = true → u = t) →
    l.find? (fun u => u.isHead) = some t
  | [], t, ht, _, _ => by cases ht
  | a :: l, t, ht, htrue, huniq => by
    by_cases ha : a.isHead = true
    · rw [List.find?_cons_of_pos _ ha, huniq a (by simp) ha]
    · rw [List.find?_cons_of_neg _ (by simpa using ha)]
      have ht' : t ∈ l := by
        rcases List.mem_cons.mp ht with h | h
        · exact absurd (h ▸ htrue) ha
        · exact h
      exact find?_isHead_unique l t ht' htrue
        (fun u hu hh => huniq u (by simp [hu]) hh)

/-- C8 (amended): given exactly one active entry carrying the head sentinel
as its previous-link, `getHeadTask` selects that entry; given zero such
entries it returns null without raising; given more than one it silently
returns a head entry (the first in slot order) rather than reporting the
corrupt read. -/
theorem getHeadTask_head_detection (mem : Memory) (tbl : List (Nat × String)) :
    (∀ t, t ∈ getActiveTasks mem tbl → t.isHead = true →
      (∀ u ∈ getActiveTasks mem tbl, u.isHead = true → u = t) →
      getHeadTask mem tbl = some t) ∧
    ((∀ u ∈ getActiveTasks mem tbl, u.isHead = false) →
      getHeadTask mem tbl = Option.none) ∧
    (∀ t, t ∈ getActiveTasks mem tbl → t.isHead = true →
      ∃ u, u ∈ getActiveTasks mem tbl ∧ u.isHead = true ∧
        getHeadTask mem tbl = some u) := by
  refine ⟨?_, ?_, ?_⟩
  · intro t ht htrue huniq
    exact find?_isHead_unique _ t ht htrue huniq
  · intro h
    rw [getHeadTask, List.find?_eq_none]
    intro x hx
    simp [h x hx]
  · intro t ht htrue
    cases hfind : (getActiveTasks mem tbl).find? (fun u => u.isHead) with
    | none =>
      rw [List.find?_eq_none] at hfind
      exact absurd htrue (by simpa using hfind t ht)
    | some u =>
      exact ⟨u, List.mem_of_find?_eq_some hfind,
        by simpa using List.find?_some hfind, hfind⟩

/-- Witness for C8 at concrete one-head and zero-head task memories. -/
theorem getHeadTask_head_detection_witness :
    getHeadTask oneHeadMem [] =
      some { id := 0, funcAddress := 0, funcName := Option.none, priority := 0
             isHead := true } ∧
    getHeadTask noHeadMem [] = Option.none :=
  ⟨(getHeadTask_head_detection oneHeadMem []).1
      { id := 0, funcAddress := 0, funcName := Option.none, priority := 0
        isHead := true } (by decide) (by decide) (by decide),
   (getHeadTask_head_detection noHeadMem []).2.1 (by decide)⟩

/-- C8 counterexample: with two active entries both carrying the head
sentinel (a corrupt read), `getHeadTask` silently resolves to the first of
them instead of reporting the condition. -/
theorem getHeadTask_two_heads_counterexample :
    (∃ t u, t ∈ getActiveTasks twoHeadMem [] ∧ u ∈ getActiveTasks twoHeadMem [] ∧
      t ≠ u ∧ t.isHead = true ∧ u.isHead = true) ∧
    getHeadTask twoHeadMem [] =
      some { id := 0, funcAddress := 0, funcName := Option.none, priority := 0
             isHead := true } := by
  refine ⟨⟨{ id := 0, funcAddress := 0, funcName := Option.none, priority := 0
             isHead := true },
           { id := 1, funcAddress := 0, funcName := Option.none, priority := 0
             isHead := true }, ?_, ?_, ?_, rfl, rfl⟩, ?_⟩
  · decide
  · decide
  · decide
  · decide

/-! ## Menu classification -/

/-- C9 (amended): `isAnyMenuOpen` is true exactly when the disjunction of
the three task-based menu predicates — party-menu, start-menu, bag-menu —
is true; the battle-menu predicate is not part of the disjunction. -/
theorem isAnyMenuOpen_iff (mem : Memory) (tbl : List (Nat × String)) :
    isAnyMenuOpen mem tbl = true ↔
      (isPartyMenuOpen mem tbl = true ∨ isStartMenuOpen mem tbl = true ∨
       isBagMenuOpen mem tbl = true) := by
  simp [isAnyMenuOpen, or_assoc]

/-- C9 counterexample: in a memory state whose in-battle bit is set and with
no active tasks, the four-way disjunction including the battle predicate is
true while `isAnyMenuOpen` is false, refuting the claimed equivalence. -/
theorem isAnyMenuOpen_battle_counterexample :
    ¬(isAnyMenuOpen battleOnlyMem [] = true ↔
      (isInBattle battleOnlyMem = true ∨ isPartyMenuOpen battleOnlyMem [] = true ∨
       isStartMenuOpen battleOnlyMem [] = true ∨
       isBagMenuOpen battleOnlyMem [] = true)) := by
  decide

/-! ## Party slot guards -/

/-- C10: `getPokemon(slot)` throws the invalid-slot error exactly for slots
outside 0..5, before any accessor call; for an in-range slot at or past the
party count it returns null after only the party-count byte read. -/
theorem getPokemon_guards (mem : Memory) (tbl : Tables) (slot : Int) :
    ((slot < 0 ∨ (PARTY_SIZE : Int) ≤ slot) →
      getPokemon mem tbl slot = (.error (.invalidSlot slot), [])) ∧
    (0 ≤ slot → slot < (PARTY_SIZE : Int) → (getPartyCount mem : Int) ≤ slot →
      getPokemon mem tbl slot = (.ok Option.none, [.r8 PLAYER_PARTY_COUNT_ADDR])) ∧
    (∀ e tr, getPokemon mem tbl slot = (.error e, tr) →
      slot < 0 ∨ (PARTY_SIZE : Int) ≤ slot) := by
  refine ⟨?_, ?_, ?_⟩
  · intro h
    rw [getPokemon, if_pos h]
  · intro h0 h6 hc
    rw [getPokemon, if_neg (by omega)]
    simp only [if_pos hc]
  · intro e tr h
    by_contra hn
    push_neg at hn
    rw [getPokemon, if_neg (by omega)] at h
    by_cases hc : (getPartyCount mem : Int) ≤ slot
    · rw [if_pos hc] at h
      simp at h
    · rw [if_neg hc] at h
      simp at h

/-- Witness for C10: party count 2, slot 4 yields null after only the
count-byte read; slot 6 yields the invalid-slot error with no reads. -/
theorem getPokemon_guards_witness :
    getPokemon partyOfTwoMem emptyTables 4 =
      (.ok Option.none, [.r8 PLAYER_PARTY_COUNT_ADDR]) ∧
    getPokemon partyOfTwoMem emptyTables 6 = (.error (.invalidSlot 6), []) :=
  ⟨(getPokemon_guards partyOfTwoMem emptyTables 4).2.1 (by decide) (by decide)
      (by decide),
   (getPokemon_guards partyOfTwoMem emptyTables 6).1 (by decide)⟩

/-! ## Stun protocol -/

/-- The poll loop with an all-busy oracle runs exactly 63 polls (at 32 ms
steps under the 2000 ms deadline) and times out. -/
theorem stunPoll_timeout_aux (oracle : Nat → Nat)
    (hbusy : ∀ j, j ≤ 62 → isMovementSafe (oracle j) = false) :
    ∀ n j, 63 - j = n → j ≤ 63 → stunPoll oracle j (32 * j) = (Option.none, 63) := by
  intro n
  induction n with
  | zero =>
    intro j hj hj63
    have : j = 63 := by omega
    subst this
    rw [stunPoll, dif_neg (by norm_num [SAFETY_TIMEOUT_MS])]
  | succ n ih =>
    intro j hj hj63
    have hle : j ≤ 62 := by omega
    rw [stunPoll, dif_pos (by simp only [SAFETY_TIMEOUT_MS]; omega),
      if_neg (by simp [hbusy j hle])]
    have harith : 32 * j + SAFETY_WAIT_MS = 32 * (j + 1) := by
      simp only [SAFETY_WAIT_MS]; ring
    rw [harith]
    exact ih (j + 1) (by omega) (by omega)

/-- C2: whenever the two movement-in-progress bits are never both clear
within the 2000 ms deadline, `stunNpc` with an in-range id fails with the
busy-timeout error and issues zero writes, leaving the target's flags word
unmodified (63 polls, 63 waits, no write). -/
theorem stunNpc_timeout (id : Int) (oracle : Nat → Nat)
    (hid1 : 1 ≤ id) (hid2 : id ≤ 15)
    (hbusy : ∀ j, j ≤ 62 → isMovementSafe (oracle j) = false) :
    stunNpc id oracle =
      { result := .error .busyTimeout, reads := 63, waits := 63, writes := [] } := by
  have hpoll : stunPoll oracle 0 0 = (Option.none, 63) := by
    have := stunPoll_timeout_aux oracle hbusy 63 0 rfl (by omega)
    simpa using this
  rw [stunNpc, if_neg (by omega), hpoll]

/-- Witness for C2 with a constantly-busy oracle and id 5. -/
theorem stunNpc_timeout_witness :
    stunNpc 5 busyOracle =
      { result := .error .busyTimeout, reads := 63, waits := 63, writes := [] } :=
  stunNpc_timeout 5 busyOracle (by decide) (by decide) (by decide)

/-- C3: every id outside 1..15 is rejected immediately with the range error
and zero reads and zero writes. -/
theorem stunNpc_range_guard (id : Int) (oracle : Nat → Nat)
    (h : id < 1 ∨ id > 15) :
    stunNpc id oracle =
      { result := .error .rangeError, reads := 0, waits := 0, writes := [] } := by
  rw [stunNpc, if_pos h]

/-- Witness for C3 at ids 16 and 0. -/
theorem stunNpc_range_guard_witness :
    stunNpc 16 busyOracle =
      { result := .error .rangeError, reads := 0, waits := 0, writes := [] } ∧
    stunNpc 0 busyOracle =
      { result := .error .rangeError, reads := 0, waits := 0, writes := [] } :=
  ⟨stunNpc_range_guard 16 busyOracle (by decide),
   stunNpc_range_guard 0 busyOracle (by decide)⟩

/-- The poll loop whose first safe window is poll `k` (within the deadline)
returns that index after exactly `k + 1` polls. -/
theorem stunPoll_first_safe_aux (oracle : Nat → Nat) (k : Nat) (hk : k ≤ 62)
    (hbusy : ∀ i, i < k → isMovementSafe (oracle i) = false)
    (hsafe : isMovementSafe (oracle k) = true) :
    ∀ n j, k - j = n → j ≤ k → stunPoll oracle j (32 * j) = (some k, k + 1) := by
  intro n
  induction n with
  | zero =>
    intro j hj hjk
    have : j = k := by omega
    subst this
    rw [stunPoll, dif_pos (by simp only [SAFETY_TIMEOUT_MS]; omega), if_pos hsafe]
  | succ n ih =>
    intro j hj hjk
    have hlt : j < k := by omega
    rw [stunPoll, dif_pos (by simp only [SAFETY_TIMEOUT_MS]; omega),
      if_neg (by simp [hbusy j hlt])]
    have harith : 32 * j + SAFETY_WAIT_MS = 32 * (j + 1) := by
      simp only [SAFETY_WAIT_MS]; ring
    rw [harith]
    exact ih (j + 1) (by omega) (by omega)

/-- C4: when the poll loop first observes a safe window at poll `k` within
the deadline (after exactly `k` wait cycles), `stunNpc` with an in-range id
re-reads the flags word exactly once more (`k + 2` reads in total) and
performs exactly one write whose value is that re-read word XOR the frozen
bit (bit 8), leaving every other bit of the written word unchanged. -/
theorem stunNpc_safe_window (id : Int) (oracle : Nat → Nat) (k : Nat)
    (hid1 : 1 ≤ id) (hid2 : id ≤ 15) (hk : k ≤ 62)
    (hbusy : ∀ i, i < k → isMovementSafe (oracle i) = false)
    (hsafe : isMovementSafe (oracle k) = true) :
    stunNpc id oracle =
      { result := .ok true, reads := k + 2, waits := k
        writes := [oracle (k + 1) ^^^ (1 <<< FROZEN_BIT)] } ∧
    (∀ j, j ≠ 8 → (oracle (k + 1) ^^^ (1 <<< FROZEN_BIT)).testBit j =
      (oracle (k + 1)).testBit j) ∧
    (oracle (k + 1) ^^^ (1 <<< FROZEN_BIT)).testBit 8 =
      !(oracle (k + 1)).testBit 8 := by
  have h256 : (1 <<< FROZEN_BIT : Nat) = 2 ^ 8 := by decide
  refine ⟨?_, ?_, ?_⟩
  · have hpoll : stunPoll oracle 0 0 = (some k, k + 1) := by
      have := stunPoll_first_safe_aux oracle k hk hbusy hsafe k 0 rfl (by omega)
      simpa using this
    rw [stunNpc, if_neg (by omega), hpoll]
  · intro j hj
    rw [h256, Nat.testBit_xor, Nat.testBit_two_pow_of_ne (fun h => hj h.symm)]
    simp
  · rw [h256, Nat.testBit_xor, Nat.testBit_two_pow_self]
    simp

/-- Witness for C4: the poll sequence busy, busy, idle at 32 ms polling
succeeds after exactly two wait cycles with one write of flags XOR 0x100. -/
theorem stunNpc_safe_window_witness :
    stunNpc 3 busyBusyIdleOracle =
      { result := .ok true, reads := 4, waits := 2, writes := [256] } :=
  (stunNpc_safe_window 3 busyBusyIdleOracle 2 (by decide) (by decide) (by decide)
    (by decide) (by decide)).1

end GemPP
